import Mathlib

/-!
Shallow embedding of the Products CRUD API of this repository.

Two implementations of the same contract are embedded:

* the in-memory Express router
  (`src/autonomous-loop-demo/src/endpoints/products.ts`, mounted by
  `src/autonomous-loop-demo/src/app.ts`), which keeps a module-level
  `products` array and a `nextId` counter, and
* the DynamoDB-backed Lambda handler (`createProduct`, `getProduct`,
  `updateProduct`, `deleteProduct`, `listProducts` and the response
  helpers `successResponse` / `errorResponse` / `corsHeaders`).

JavaScript request-body values are modelled by `JVal` (a field of the
parsed JSON body is `undefined`, `null`, a string, a number, or some
other value such as a boolean or object).  JavaScript numbers are
modelled by `ℚ`; timestamps (`new Date().toISOString()`) and the
randomly generated UUID of the Lambda backend are passed in as explicit
`String` parameters.  Stateful handlers become functions from the store
to a response together with the new store.
-/

/-- A JavaScript value as it can appear in a parsed JSON request body
field: `undefined` (field absent), `null`, a string, a number, or any
other value (boolean, object, array...). -/
inductive JVal : Type where
  | vUndef : JVal
  | vNull : JVal
  | vStr : String → JVal
  | vNum : ℚ → JVal
  | vOther : JVal
deriving DecidableEq, Repr

/-- A request body for create/update: the three fields `name`, `price`,
`category`, each a JavaScript value (`JVal.vUndef` when absent). -/
structure Body where
  name : JVal
  price : JVal
  category : JVal
deriving DecidableEq, Repr

/-- The whitespace characters recognised by JavaScript string trimming
(the ASCII ones plus no-break space; enough for this development). -/
def isJsSpace (c : Char) : Bool :=
  c = ' ' || c = '\t' || c = '\n' || c = '\r' ||
    c = Char.ofNat 11 || c = Char.ofNat 12 || c = Char.ofNat 160

/-- Drop the longest run of characters satisfying `f` from the front. -/
def dropLead (f : Char → Bool) : List Char → List Char
  | [] => []
  | c :: l => if f c then dropLead f l else c :: l

/-- `String.prototype.trim` on the character list: drop whitespace from
the front, then from the back (via reversal). -/
def jsTrimList (l : List Char) : List Char :=
  (dropLead isJsSpace ((dropLead isJsSpace l).reverse)).reverse

/-- Trim from the back: reverse, drop from the front, reverse back. -/
def trimRev (f : Char → Bool) (m : List Char) : List Char :=
  (dropLead f m.reverse).reverse

/-- `String.prototype.trim`. -/
def jsTrim (s : String) : String :=
  ⟨jsTrimList s.data⟩

/-- Numeric value of a digit character. -/
def digToNat (c : Char) : Nat :=
  c.toNat - 48

/-- Accumulate the value of a list of decimal digit characters. -/
def digitsVal : List Char → Nat → Nat
  | [], acc => acc
  | c :: l, acc => digitsVal l (acc * 10 + digToNat c)

/-- Read the longest leading run of decimal digits; `none` if there is
none (in JavaScript, `parseInt` then returns `NaN`). -/
def parseDigits (l : List Char) : Option Nat :=
  match l.takeWhile (fun c => c.isDigit) with
  | [] => none
  | ds => some (digitsVal ds 0)

/-- `parseInt(s, 10)`: skip leading whitespace, read an optional sign
and then the longest run of decimal digits (trailing garbage is
ignored); `none` models the `NaN` result when no digit is found. -/
def parseIntJs (s : String) : Option Int :=
  match dropLead isJsSpace s.data with
  | '-' :: rest => (parseDigits rest).map (fun n => -(n : Int))
  | '+' :: rest => (parseDigits rest).map (fun n => (n : Int))
  | l => (parseDigits l).map (fun n => (n : Int))

/-- The strict-equality test `p.id === id` used by the router's array
lookups: `id` is the `parseInt` result (`none` = `NaN`, which compares
unequal to everything). -/
def idMatches (pid : Nat) (oid : Option Int) : Bool :=
  match oid with
  | none => false
  | some n => n == (pid : Int)

/-- String interpolation of the parsed id (`NaN` prints as `"NaN"`). -/
def idStr : Option Int → String
  | none => "NaN"
  | some n => toString n

/-- A stored Product record, parametric in the id type: the in-memory
backend uses increasing `Nat` ids, the DynamoDB backend UUID strings. -/
structure Product (ι : Type) where
  id : ι
  name : String
  price : ℚ
  category : String
  createdAt : String
  updatedAt : Option String
deriving DecidableEq, Repr

/-- A JSON response body: a single product, a list of products, an
error envelope `\x7bsuccess: false, error\x7d`, or a success message
envelope `\x7bsuccess: true, message\x7d`. -/
inductive RBody (ι : Type) : Type where
  | one : Product ι → RBody ι
  | many : List (Product ι) → RBody ι
  | err : String → RBody ι
  | msg : String → RBody ι
deriving DecidableEq, Repr

/-- An HTTP response: status code, headers, JSON body. -/
structure Resp (ι : Type) where
  status : Nat
  headers : List (String × String)
  body : RBody ι
deriving DecidableEq, Repr

section ListHelpers

variable {α : Type}

/-- `Array.prototype.find` (first element satisfying the predicate). -/
def findP (f : α → Bool) : List α → Option α
  | [] => none
  | a :: l => if f a then some a else findP f l

/-- `find` together with `findIndex`: the first matching element and
its index (the router mutates the found object in the backing array, so
the model needs its position to write the change back). -/
def findWithIdx (f : α → Bool) : List α → Option (Nat × α)
  | [] => none
  | a :: l => if f a then some (0, a)
              else (findWithIdx f l).map (fun x => (x.1 + 1, x.2))

/-- Write `v` at position `i` (out-of-range writes are dropped). -/
def setIdx : List α → Nat → α → List α
  | [], _, _ => []
  | _ :: l, 0, v => v :: l
  | a :: l, n + 1, v => a :: setIdx l n v

/-- `Array.prototype.splice(i, 1)`: remove the element at position `i`. -/
def removeIdx : List α → Nat → List α
  | [], _ => []
  | _ :: l, 0 => l
  | a :: l, n + 1 => a :: removeIdx l n

end ListHelpers

/-! ### Validation guards shared by the two backends

Both backends run literally the same JavaScript conditions, so the
guards are shared definitions. -/

/-- Create-time check for `name` and `category`:
`!v || typeof v !== 'string' || v.trim() === ''` — the field is
acceptable exactly when it is a string whose trimmed form is
non-empty. -/
def createNameOk (v : JVal) : Bool :=
  match v with
  | JVal.vStr s => !(jsTrim s == "")
  | _ => false

/-- `typeof v === 'number'`. -/
def isNumVal (v : JVal) : Bool :=
  match v with
  | JVal.vNum _ => true
  | _ => false

/-- The numeric value of a number field (only read under a guard that
established `isNumVal`). -/
def numOf (v : JVal) : ℚ :=
  match v with
  | JVal.vNum q => q
  | _ => 0

/-- The string value of a string field (only read under a guard that
established the field is a string). -/
def strOf (v : JVal) : String :=
  match v with
  | JVal.vStr s => s
  | _ => ""

/-- Update-time check for `name`/`category`: the field was supplied
(`!== undefined`) but `typeof v !== 'string' || v.trim() === ''`. -/
def nameUpdBad (v : JVal) : Bool :=
  match v with
  | JVal.vUndef => false
  | JVal.vStr s => jsTrim s == ""
  | _ => true

/-- Update-time check for `price`: supplied but
`typeof v !== 'number' || v <= 0`. -/
def priceUpdBad (v : JVal) : Bool :=
  match v with
  | JVal.vUndef => false
  | JVal.vNum q => decide (q ≤ 0)
  | _ => true

/-- `product.name = name.trim()` when a name was supplied (the guard
has already ensured a supplied name is a string). -/
def applyName {ι : Type} (p : Product ι) (v : JVal) : Product ι :=
  match v with
  | JVal.vStr s => { p with name := jsTrim s }
  | _ => p

/-- `product.price = price` when a price was supplied. -/
def applyPrice {ι : Type} (p : Product ι) (v : JVal) : Product ι :=
  match v with
  | JVal.vNum q => { p with price := q }
  | _ => p

/-- `product.category = category.trim()` when a category was supplied. -/
def applyCat {ι : Type} (p : Product ι) (v : JVal) : Product ι :=
  match v with
  | JVal.vStr s => { p with category := jsTrim s }
  | _ => p

namespace Express

/-- The module state of the in-memory router: the `products` array and
the `nextId` counter. -/
structure Store where
  products : List (Product Nat)
  nextId : Nat
deriving DecidableEq, Repr

/-- The module initialisers `let products = []; let nextId = 1`. -/
def initialStore : Store :=
  ⟨[], 1⟩

/-- Headers the Express app puts on a JSON response.  `app.ts` installs
only the `express.json()` and `express.urlencoded()` body parsers before
the router, so no middleware adds CORS headers; `res.json` sets the
content type and Express stamps `X-Powered-By`. -/
def expressHeaders : List (String × String) :=
  [("Content-Type", "application/json; charset=utf-8"),
   ("X-Powered-By", "Express")]

/-- `res.status(code).json(\x7bsuccess: false, error\x7d)`. -/
def exErr (code : Nat) (e : String) : Resp Nat :=
  ⟨code, expressHeaders, RBody.err e⟩

/-- `res.status(code).json(...)` with a success body. -/
def exOk (code : Nat) (b : RBody Nat) : Resp Nat :=
  ⟨code, expressHeaders, b⟩

/-- `GET /api/products`. -/
def listProducts (st : Store) : Resp Nat :=
  exOk 200 (RBody.many st.products)

/-- `GET /api/products/:id`. -/
def getProduct (st : Store) (idParam : String) : Resp Nat :=
  let id := parseIntJs idParam
  match findP (fun p => idMatches p.id id) st.products with
  | none => exErr 404 ("Product with id " ++ idStr id ++ " not found")
  | some p => exOk 200 (RBody.one p)

/-- `POST /api/products`: validate `name`, then `price` (presence/type,
then positivity), then `category`; on success push a new product built
from the trimmed strings with id `nextId` (post-incremented). -/
def createProduct (st : Store) (b : Body) (now : String) :
    Resp Nat × Store :=
  if !createNameOk b.name then
    (exErr 400 "name is required and must be a non-empty string", st)
  else if !isNumVal b.price then
    (exErr 400 "price is required and must be a number", st)
  else if numOf b.price ≤ 0 then
    (exErr 400 "price must be positive", st)
  else if !createNameOk b.category then
    (exErr 400 "category is required and must be a non-empty string", st)
  else
    let p : Product Nat :=
      ⟨st.nextId, jsTrim (strOf b.name), numOf b.price,
        jsTrim (strOf b.category), now, none⟩
    (exOk 201 (RBody.one p), ⟨st.products ++ [p], st.nextId + 1⟩)

/-- `PUT /api/products/:id`: find the product (404 when missing), then
for each supplied field in order `name`, `price`, `category`: reject
with 400 when invalid, otherwise assign it to the found object at once
(the handler mutates the array element *before* validating the later
fields, so an early valid field is already stored when a later field
fails).  On success, also set `updatedAt` and return the record. -/
def updateProduct (st : Store) (idParam : String) (b : Body)
    (now : String) : Resp Nat × Store :=
  let id := parseIntJs idParam
  match findWithIdx (fun p => idMatches p.id id) st.products with
  | none =>
      (exErr 404 ("Product with id " ++ idStr id ++ " not found"), st)
  | some (i, p0) =>
      if nameUpdBad b.name then
        (exErr 400 "name must be a non-empty string", st)
      else
        let p1 := applyName p0 b.name
        if priceUpdBad b.price then
          (exErr 400 "price must be a positive number",
            { st with products := setIdx st.products i p1 })
        else
          let p2 := applyPrice p1 b.price
          if nameUpdBad b.category then
            (exErr 400 "category must be a non-empty string",
              { st with products := setIdx st.products i p2 })
          else
            let p3 := applyCat p2 b.category
            let p4 := { p3 with updatedAt := some now }
            (exOk 200 (RBody.one p4),
              { st with products := setIdx st.products i p4 })

/-- `DELETE /api/products/:id`: find the index (404 when missing),
`splice` it out, and answer with a success message. -/
def deleteProduct (st : Store) (idParam : String) : Resp Nat × Store :=
  let id := parseIntJs idParam
  match findWithIdx (fun p => idMatches p.id id) st.products with
  | none =>
      (exErr 404 ("Product with id " ++ idStr id ++ " not found"), st)
  | some (i, _) =>
      (exOk 200 (RBody.msg
          ("Product with id " ++ idStr id ++ " deleted successfully")),
        { st with products := removeIdx st.products i })

end Express

namespace Dyn

/-- The DynamoDB table, as a key-value store keyed by the string `id`. -/
abbrev DStore := List (Product String)

/-- The `corsHeaders()` helper of the Lambda handler. -/
def corsHeaders : List (String × String) :=
  [("Content-Type", "application/json"),
   ("Access-Control-Allow-Origin", "*"),
   ("Access-Control-Allow-Methods", "GET,POST,PUT,DELETE,OPTIONS"),
   ("Access-Control-Allow-Headers", "Content-Type,Authorization")]

/-- The `errorResponse(statusCode, error)` helper. -/
def errorResponse (code : Nat) (e : String) : Resp String :=
  ⟨code, corsHeaders, RBody.err e⟩

/-- The `successResponse(statusCode, data)` helper. -/
def successResponse (code : Nat) (b : RBody String) : Resp String :=
  ⟨code, corsHeaders, b⟩

/-- `PutCommand`: upsert by key `id`. -/
def putItem (st : DStore) (p : Product String) : DStore :=
  st.filter (fun q => !(q.id == p.id)) ++ [p]

/-- The `UpdateCommand` with `SET` expressions on an existing key:
replace the item stored under `id`. -/
def replaceItem (st : DStore) (id : String) (p : Product String) :
    DStore :=
  st.map (fun q => if q.id == id then p else q)

/-- `GetCommand` by key. -/
def fetchItem (st : DStore) (id : String) : Option (Product String) :=
  findP (fun q => q.id == id) st

/-- `listProducts`: scan the whole table. -/
def listProducts (st : DStore) : Resp String :=
  successResponse 200 (RBody.many st)

/-- `getProduct(id)`. -/
def getProduct (st : DStore) (id : String) : Resp String :=
  match fetchItem st id with
  | none => errorResponse 404 "Product not found"
  | some p => successResponse 200 (RBody.one p)

/-- `createProduct(body)`: validate `name`; then `price` presence
(`undefined`/`null`), then its type and positivity; then `category`;
on success put a product with a generated UUID (`newId`) and the
current timestamp (`now`). -/
def createProduct (st : DStore) (b : Body) (newId now : String) :
    Resp String × DStore :=
  if !createNameOk b.name then
    (errorResponse 400 "Name is required and must be a non-empty string", st)
  else if b.price == JVal.vUndef || b.price == JVal.vNull then
    (errorResponse 400 "Price is required", st)
  else if !isNumVal b.price || numOf b.price ≤ 0 then
    (errorResponse 400 "Price must be a positive number", st)
  else if !createNameOk b.category then
    (errorResponse 400 "Category is required and must be a non-empty string", st)
  else
    let p : Product String :=
      ⟨newId, jsTrim (strOf b.name), numOf b.price,
        jsTrim (strOf b.category), now, none⟩
    (successResponse 201 (RBody.one p), putItem st p)

/-- `updateProduct(id, body)`: fetch first (404 when missing), then
validate every supplied field, and only then build the update
expression that sets the supplied fields (trimmed) plus `updatedAt`
and write it; `ReturnValues: ALL_NEW` returns the updated record. -/
def updateProduct (st : DStore) (id : String) (b : Body)
    (now : String) : Resp String × DStore :=
  match fetchItem st id with
  | none =>
      (errorResponse 404 ("Product with id " ++ id ++ " not found"), st)
  | some item =>
      if nameUpdBad b.name then
        (errorResponse 400 "Name must be a non-empty string", st)
      else if priceUpdBad b.price then
        (errorResponse 400 "Price must be a positive number", st)
      else if nameUpdBad b.category then
        (errorResponse 400 "Category must be a non-empty string", st)
      else
        let p :=
          { applyCat (applyPrice (applyName item b.name) b.price)
              b.category with updatedAt := some now }
        (successResponse 200 (RBody.one p), replaceItem st id p)

/-- `deleteProduct(id)`: fetch first (404 when missing), then delete by
key and answer with the fixed success message. -/
def deleteProduct (st : DStore) (id : String) : Resp String × DStore :=
  match fetchItem st id with
  | none =>
      (errorResponse 404 ("Product with id " ++ id ++ " not found"), st)
  | some _ =>
      (⟨200, corsHeaders, RBody.msg "Product deleted successfully"⟩,
        st.filter (fun q => !(q.id == id)))

end Dyn

/-! ### Substring search ("the error message mentions a field name")

The spec phrases several properties as "the error mentions `price`"
(and the Lambda backend capitalises the field names), so mentions are
checked case-insensitively. -/

/-- Is `n` a literal first segment of `h`? -/
def leadsWith : List Char → List Char → Bool
  | [], _ => true
  | _ :: _, [] => false
  | a :: n, b :: h => a == b && leadsWith n h

/-- Does `n` occur contiguously somewhere in `h`? -/
def containsSub (n : List Char) : List Char → Bool
  | [] => leadsWith n []
  | c :: h => leadsWith n (c :: h) || containsSub n h

/-- Case-insensitive "the string `s` mentions the word `w`". -/
def mentions (w s : String) : Bool :=
  containsSub (w.data.map Char.toLower) (s.data.map Char.toLower)

/-- The error string of a failure response (`""` on success bodies). -/
def Resp.errText {ι : Type} (r : Resp ι) : String :=
  match r.body with
  | RBody.err e => e
  | _ => ""

/-- The three validated fields, in the evaluation order of `create`. -/
inductive RuleField : Type where
  | fname : RuleField
  | fprice : RuleField
  | fcat : RuleField
deriving DecidableEq, Repr

/-- The word the error message of each rule must mention. -/
def fieldWord : RuleField → String
  | RuleField.fname => "name"
  | RuleField.fprice => "price"
  | RuleField.fcat => "category"

/-- The error message mentions neither of the two *other* fields. -/
def otherWordsAbsent (f : RuleField) (s : String) : Bool :=
  match f with
  | RuleField.fname => !(mentions "price" s) && !(mentions "category" s)
  | RuleField.fprice => !(mentions "name" s) && !(mentions "category" s)
  | RuleField.fcat => !(mentions "name" s) && !(mentions "price" s)

/-- The first violated create-validation rule, in the fixed order
`name`, then `price` (a number strictly greater than zero), then
`category`; `none` when the body passes full validation. -/
def firstBad (b : Body) : Option RuleField :=
  if !createNameOk b.name then some RuleField.fname
  else if !(isNumVal b.price && decide (0 < numOf b.price)) then
    some RuleField.fprice
  else if !createNameOk b.category then some RuleField.fcat
  else none

/-! ### Invariants and reachable states -/

/-- A record whose `name` and `category` are stored trimmed. -/
def TrimOk {ι : Type} (p : Product ι) : Prop :=
  jsTrim p.name = p.name ∧ jsTrim p.category = p.category

namespace Express

/-- The store invariant of the in-memory backend: all stored records
are trimmed, every issued id is below the `nextId` counter, and ids are
pairwise distinct. -/
def StoreInv (st : Store) : Prop :=
  (∀ p ∈ st.products, TrimOk p ∧ p.id < st.nextId) ∧
    (st.products.map Product.id).Nodup

/-- One mutating request against the in-memory router. -/
inductive Step : Store → Store → Prop where
  | create (st : Store) (b : Body) (now : String) :
      Step st (createProduct st b now).2
  | update (st : Store) (idParam : String) (b : Body) (now : String) :
      Step st (updateProduct st idParam b now).2
  | delete (st : Store) (idParam : String) :
      Step st (deleteProduct st idParam).2

/-- Store states reachable from the module initialisation by any
sequence of requests (read-only requests do not change the store). -/
inductive Reachable : Store → Prop where
  | init : Reachable initialStore
  | step {st st' : Store} : Reachable st → Step st st' → Reachable st'

end Express

namespace Dyn

/-- Table invariant of the DynamoDB backend: all items are trimmed. -/
def TableInv (st : DStore) : Prop :=
  ∀ p ∈ st, TrimOk p

/-- One mutating request against the Lambda handler. -/
inductive DStep : DStore → DStore → Prop where
  | create (st : DStore) (b : Body) (newId now : String) :
      DStep st (createProduct st b newId now).2
  | update (st : DStore) (id : String) (b : Body) (now : String) :
      DStep st (updateProduct st id b now).2
  | delete (st : DStore) (id : String) :
      DStep st (deleteProduct st id).2

/-- Table states reachable from the freshly provisioned (empty) table. -/
inductive DReachable : DStore → Prop where
  | init : DReachable []
  | step {st st' : DStore} : DReachable st → DStep st st' → DReachable st'

end Dyn

/-! ### Concrete sample data used by witnesses and counterexamples -/

/-- A sample stored product of the in-memory backend. -/
def sampleProd : Product Nat :=
  ⟨1, "Old", 10, "Cat", "t0", none⟩

/-- A sample in-memory store holding `sampleProd`. -/
def sampleStore : Express.Store :=
  ⟨[sampleProd], 2⟩

/-- A sample stored product of the DynamoDB backend. -/
def sampleDProd : Product String :=
  ⟨"u1", "Old", 10, "Cat", "t0", none⟩

/-- A sample table holding `sampleDProd`. -/
def sampleDStore : Dyn.DStore :=
  [sampleDProd]

/-! ### Basic lemmas about trimming and the list helpers -/

theorem dropLead_idem (f : Char → Bool) (l : List Char) :
    dropLead f (dropLead f l) = dropLead f l := by
  induction l with
  | nil => rfl
  | cons c l ih =>
    by_cases h : f c
    · simp [dropLead, h, ih]
    · simp [dropLead, h]

theorem dropLead_length_le (f : Char → Bool) (l : List Char) :
    (dropLead f l).length ≤ l.length := by
  induction l with
  | nil => simp [dropLead]
  | cons c l ih =>
    by_cases h : f c
    · simp only [dropLead, h, if_pos]
      exact le_trans ih (Nat.le_succ _)
    · simp [dropLead, h]

theorem dropLead_append (f : Char → Bool) (xs ys : List Char) :
    dropLead f (xs ++ ys) =
      if dropLead f xs = [] then dropLead f ys
      else dropLead f xs ++ ys := by
  induction xs with
  | nil => simp [dropLead]
  | cons c xs ih =>
    by_cases h : f c
    · simpa [dropLead, h] using ih
    · simp [dropLead, h]

theorem dropLead_eq_self_head (f : Char → Bool) (c : Char)
    (t : List Char) (h : dropLead f (c :: t) = c :: t) : f c = false := by
  by_cases hc : f c
  · exfalso
    have hlen := dropLead_length_le f t
    rw [show dropLead f (c :: t) = dropLead f t by simp [dropLead, hc]]
      at h
    rw [h] at hlen
    simp at hlen
  · simpa using hc

theorem dropLead_trimRev (f : Char → Bool) (l : List Char)
    (h : dropLead f l = l) : dropLead f (trimRev f l) = trimRev f l := by
  cases l with
  | nil => rfl
  | cons c t =>
    have hc : f c = false := dropLead_eq_self_head f c t h
    unfold trimRev
    rw [List.reverse_cons, dropLead_append]
    by_cases he : dropLead f t.reverse = []
    · simp [he, dropLead, hc]
    · simp [he, List.reverse_append, dropLead, hc]

theorem trimRev_idem (f : Char → Bool) (m : List Char) :
    trimRev f (trimRev f m) = trimRev f m := by
  unfold trimRev
  rw [List.reverse_reverse, dropLead_idem]

theorem jsTrimList_eq (l : List Char) :
    jsTrimList l = trimRev isJsSpace (dropLead isJsSpace l) := rfl

theorem jsTrimList_idem (l : List Char) :
    jsTrimList (jsTrimList l) = jsTrimList l := by
  rw [jsTrimList_eq, jsTrimList_eq,
    dropLead_trimRev isJsSpace _ (dropLead_idem isJsSpace l),
    trimRev_idem]

theorem jsTrim_idem (s : String) : jsTrim (jsTrim s) = jsTrim s := by
  unfold jsTrim
  exact congrArg String.mk (jsTrimList_idem s.data)

section ListHelperLemmas

variable {α : Type} {f : α → Bool}

theorem findP_eq_none {l : List α} (h : ∀ x ∈ l, f x = false) :
    findP f l = none := by
  induction l with
  | nil => rfl
  | cons a l ih =>
    have ha := h a (by simp)
    simp only [findP, ha, Bool.false_eq_true, if_false]
    exact ih (fun x hx => h x (by simp [hx]))

theorem findWithIdx_eq_none {l : List α} (h : ∀ x ∈ l, f x = false) :
    findWithIdx f l = none := by
  induction l with
  | nil => rfl
  | cons a l ih =>
    have ha := h a (by simp)
    simp only [findWithIdx, ha, Bool.false_eq_true, if_false]
    rw [ih (fun x hx => h x (by simp [hx]))]
    rfl

theorem findWithIdx_mem {l : List α} {i : Nat} {p : α}
    (h : findWithIdx f l = some (i, p)) : p ∈ l ∧ f p = true := by
  induction l generalizing i with
  | nil => simp [findWithIdx] at h
  | cons a l ih =>
    by_cases ha : f a
    · simp only [findWithIdx, ha, if_pos, Option.some.injEq,
        Prod.mk.injEq] at h
      obtain ⟨h1, h2⟩ := h
      subst h2
      exact ⟨List.mem_cons_self a l, ha⟩
    · simp only [findWithIdx, ha, Bool.false_eq_true, if_false,
        Option.map_eq_some'] at h
      obtain ⟨⟨j, q⟩, hj, hq⟩ := h
      simp only [Prod.mk.injEq] at hq
      obtain ⟨h1, h2⟩ := hq
      subst h2
      exact ⟨List.mem_cons_of_mem a (ih hj).1, (ih hj).2⟩

theorem mem_setIdx {l : List α} {i : Nat} {v x : α}
    (h : x ∈ setIdx l i v) : x = v ∨ x ∈ l := by
  induction l generalizing i with
  | nil => simp [setIdx] at h
  | cons a l ih =>
    cases i with
    | zero =>
      simp only [setIdx, List.mem_cons] at h
      rcases h with h | h
      · exact Or.inl h
      · exact Or.inr (by simp [h])
    | succ n =>
      simp only [setIdx, List.mem_cons] at h
      rcases h with h | h
      · exact Or.inr (by simp [h])
      · rcases ih h with h' | h'
        · exact Or.inl h'
        · exact Or.inr (by simp [h'])

theorem map_setIdx {β : Type} (g : α → β) {l : List α} {i : Nat}
    {v p : α} (hf : findWithIdx f l = some (i, p)) (hg : g v = g p) :
    (setIdx l i v).map g = l.map g := by
  induction l generalizing i with
  | nil => simp [findWithIdx] at hf
  | cons a l ih =>
    by_cases ha : f a
    · simp only [findWithIdx, ha, if_pos, Option.some.injEq,
        Prod.mk.injEq] at hf
      obtain ⟨h1, h2⟩ := hf
      subst h2
      cases h1
      simp [setIdx, hg]
    · simp only [findWithIdx, ha, Bool.false_eq_true, if_false,
        Option.map_eq_some'] at hf
      obtain ⟨⟨j, q⟩, hj, hq⟩ := hf
      simp only [Prod.mk.injEq] at hq
      obtain ⟨h1, h2⟩ := hq
      subst h2
      cases h1
      simp [setIdx, ih hj]

theorem removeIdx_sublist (l : List α) (i : Nat) :
    List.Sublist (removeIdx l i) l := by
  induction l generalizing i with
  | nil => simp [removeIdx]
  | cons a l ih =>
    cases i with
    | zero => exact List.sublist_cons_self a l
    | succ n => exact List.Sublist.cons₂ a (ih n)

end ListHelperLemmas

theorem findP_mem {α : Type} {f : α → Bool} {l : List α} {x : α}
    (h : findP f l = some x) : x ∈ l ∧ f x = true := by
  induction l with
  | nil => simp [findP] at h
  | cons a l ih =>
    by_cases ha : f a
    · simp only [findP, ha, if_pos, Option.some.injEq] at h
      subst h
      exact ⟨List.mem_cons_self a l, ha⟩
    · simp only [findP, ha, Bool.false_eq_true, if_false] at h
      exact ⟨List.mem_cons_of_mem a (ih h).1, (ih h).2⟩

theorem idMatches_inj {a b : Nat} {oid : Option Int}
    (ha : idMatches a oid = true) (hb : idMatches b oid = true) :
    a = b := by
  cases oid with
  | none => simp [idMatches] at ha
  | some n =>
    simp only [idMatches, beq_iff_eq] at ha hb
    exact_mod_cast ha.symm.trans hb

example : jsTrim "  a b  " = "a b" := by decide
example : parseIntJs " 42x" = some 42 := by decide
example : parseIntJs "abc" = none := by decide
example : parseIntJs "-7" = some (-7) := by decide
example : mentions "price" "Price must be a positive number" = true := by decide
example : mentions "name" "price is required and must be a number" = false := by decide
example : mentions "delete" "Product with id 3 deleted successfully" = true := by decide

/-! ### Field behaviour of the update assignments -/

theorem applyName_id {ι : Type} (p : Product ι) (v : JVal) :
    (applyName p v).id = p.id := by
  cases v <;> rfl

theorem applyPrice_id {ι : Type} (p : Product ι) (v : JVal) :
    (applyPrice p v).id = p.id := by
  cases v <;> rfl

theorem applyCat_id {ι : Type} (p : Product ι) (v : JVal) :
    (applyCat p v).id = p.id := by
  cases v <;> rfl

theorem applyName_trimOk {ι : Type} {p : Product ι} (h : TrimOk p)
    (v : JVal) : TrimOk (applyName p v) := by
  cases v with
  | vStr s => exact ⟨jsTrim_idem s, h.2⟩
  | vUndef => exact h
  | vNull => exact h
  | vNum q => exact h
  | vOther => exact h

theorem applyPrice_trimOk {ι : Type} {p : Product ι} (h : TrimOk p)
    (v : JVal) : TrimOk (applyPrice p v) := by
  cases v <;> exact h

theorem applyCat_trimOk {ι : Type} {p : Product ι} (h : TrimOk p)
    (v : JVal) : TrimOk (applyCat p v) := by
  cases v with
  | vStr s => exact ⟨h.1, jsTrim_idem s⟩
  | vUndef => exact h
  | vNull => exact h
  | vNum q => exact h
  | vOther => exact h

theorem applyName_price {ι : Type} (p : Product ι) (v : JVal) :
    (applyName p v).price = p.price := by
  cases v <;> rfl

theorem applyName_category {ι : Type} (p : Product ι) (v : JVal) :
    (applyName p v).category = p.category := by
  cases v <;> rfl

theorem applyName_createdAt {ι : Type} (p : Product ι) (v : JVal) :
    (applyName p v).createdAt = p.createdAt := by
  cases v <;> rfl

theorem applyPrice_name {ι : Type} (p : Product ι) (v : JVal) :
    (applyPrice p v).name = p.name := by
  cases v <;> rfl

theorem applyPrice_category {ι : Type} (p : Product ι) (v : JVal) :
    (applyPrice p v).category = p.category := by
  cases v <;> rfl

theorem applyPrice_createdAt {ι : Type} (p : Product ι) (v : JVal) :
    (applyPrice p v).createdAt = p.createdAt := by
  cases v <;> rfl

theorem applyCat_name {ι : Type} (p : Product ι) (v : JVal) :
    (applyCat p v).name = p.name := by
  cases v <;> rfl

theorem applyCat_price {ι : Type} (p : Product ι) (v : JVal) :
    (applyCat p v).price = p.price := by
  cases v <;> rfl

theorem applyCat_createdAt {ι : Type} (p : Product ι) (v : JVal) :
    (applyCat p v).createdAt = p.createdAt := by
  cases v <;> rfl

theorem applyName_undef {ι : Type} (p : Product ι) :
    applyName p JVal.vUndef = p := rfl

theorem applyPrice_undef {ι : Type} (p : Product ι) :
    applyPrice p JVal.vUndef = p := rfl

theorem applyCat_undef {ι : Type} (p : Product ι) :
    applyCat p JVal.vUndef = p := rfl

/-! ### Substring facts -/

theorem containsSub_append_right {n b : List Char} (a : List Char)
    (h : containsSub n b = true) : containsSub n (a ++ b) = true := by
  induction a with
  | nil => exact h
  | cons c a ih =>
    simp only [List.cons_append, containsSub, Bool.or_eq_true]
    exact Or.inr ih

theorem mentions_append_right {w s2 : String} (s1 : String)
    (h : mentions w s2 = true) : mentions w (s1 ++ s2) = true := by
  unfold mentions at h ⊢
  rw [String.data_append, List.map_append]
  exact containsSub_append_right _ h

/-- After removing the (unique, by `Nodup` ids) matching record, a
second lookup with the same id misses. -/
theorem findP_removeIdx_none {l : List (Product Nat)}
    {oid : Option Int} {i : Nat} {p0 : Product Nat}
    (hnd : (l.map Product.id).Nodup)
    (hf : findWithIdx (fun p => idMatches p.id oid) l = some (i, p0)) :
    findP (fun p => idMatches p.id oid) (removeIdx l i) = none := by
  induction l generalizing i with
  | nil => simp [findWithIdx] at hf
  | cons a l ih =>
    have hnd' : (∀ x ∈ l, ¬x.id = a.id) ∧
        (l.map Product.id).Nodup := by simpa using hnd
    by_cases ha : idMatches a.id oid
    · simp only [findWithIdx, ha, if_pos, Option.some.injEq,
        Prod.mk.injEq] at hf
      obtain ⟨h1, h2⟩ := hf
      cases h1
      apply findP_eq_none
      intro x hx
      cases hxx : idMatches x.id oid with
      | false => rfl
      | true => exact absurd (idMatches_inj hxx ha) (hnd'.1 x hx)
    · simp only [findWithIdx, ha, Bool.false_eq_true, if_false,
        Option.map_eq_some'] at hf
      obtain ⟨⟨j, q⟩, hj, hq⟩ := hf
      simp only [Prod.mk.injEq] at hq
      obtain ⟨h1, h2⟩ := hq
      subst h2
      cases h1
      show findP _ (a :: removeIdx l j) = none
      simp only [findP, ha, Bool.false_eq_true, if_false]
      exact ih hnd'.2 hj

/-! ### Response headers of every branch of each handler -/

theorem exList_headers (st : Express.Store) :
    (Express.listProducts st).headers = Express.expressHeaders := rfl

theorem exGet_headers (st : Express.Store) (idp : String) :
    (Express.getProduct st idp).headers = Express.expressHeaders := by
  unfold Express.getProduct
  dsimp only
  cases findP (fun p => idMatches p.id (parseIntJs idp)) st.products <;>
    rfl

theorem exCreate_headers (st : Express.Store) (b : Body)
    (now : String) :
    (Express.createProduct st b now).1.headers
      = Express.expressHeaders := by
  unfold Express.createProduct
  split
  · rfl
  split
  · rfl
  split
  · rfl
  split
  · rfl
  rfl

theorem exUpdate_headers (st : Express.Store) (idp : String) (b : Body)
    (now : String) :
    (Express.updateProduct st idp b now).1.headers
      = Express.expressHeaders := by
  unfold Express.updateProduct
  dsimp only
  cases findWithIdx (fun p => idMatches p.id (parseIntJs idp))
      st.products with
  | none => rfl
  | some ip =>
    obtain ⟨i, p0⟩ := ip
    dsimp only
    split
    · rfl
    split
    · rfl
    split
    · rfl
    rfl

theorem exDelete_headers (st : Express.Store) (idp : String) :
    (Express.deleteProduct st idp).1.headers
      = Express.expressHeaders := by
  unfold Express.deleteProduct
  dsimp only
  cases findWithIdx (fun p => idMatches p.id (parseIntJs idp))
      st.products with
  | none => rfl
  | some ip => rfl

theorem dynGet_headers (st : Dyn.DStore) (id : String) :
    (Dyn.getProduct st id).headers = Dyn.corsHeaders := by
  unfold Dyn.getProduct
  cases Dyn.fetchItem st id <;> rfl

theorem dynCreate_headers (st : Dyn.DStore) (b : Body)
    (newId now : String) :
    (Dyn.createProduct st b newId now).1.headers = Dyn.corsHeaders := by
  unfold Dyn.createProduct
  split
  · rfl
  split
  · rfl
  split
  · rfl
  split
  · rfl
  rfl

theorem dynUpdate_headers (st : Dyn.DStore) (id : String) (b : Body)
    (now : String) :
    (Dyn.updateProduct st id b now).1.headers = Dyn.corsHeaders := by
  unfold Dyn.updateProduct
  cases Dyn.fetchItem st id with
  | none => rfl
  | some item =>
    dsimp only
    split
    · rfl
    split
    · rfl
    split
    · rfl
    rfl

theorem dynDelete_headers (st : Dyn.DStore) (id : String) :
    (Dyn.deleteProduct st id).1.headers = Dyn.corsHeaders := by
  unfold Dyn.deleteProduct
  cases Dyn.fetchItem st id <;> rfl

/-! ### Invariant preservation, in-memory backend -/

theorem exSetIdx_inv {st : Express.Store} {oid : Option Int} {i : Nat}
    {p0 q : Product Nat} (h : Express.StoreInv st)
    (hf : findWithIdx (fun p => idMatches p.id oid) st.products
            = some (i, p0))
    (hTrim : TrimOk q) (hid : q.id = p0.id) :
    Express.StoreInv { st with products := setIdx st.products i q } := by
  constructor
  · intro x hx
    rcases mem_setIdx hx with rfl | hx
    · exact ⟨hTrim, hid ▸ (h.1 p0 (findWithIdx_mem hf).1).2⟩
    · exact h.1 x hx
  · have := map_setIdx Product.id hf hid
    simpa [this] using h.2

theorem exCreate_inv (st : Express.Store) (b : Body) (now : String)
    (h : Express.StoreInv st) :
    Express.StoreInv (Express.createProduct st b now).2 := by
  unfold Express.createProduct
  split
  · exact h
  split
  · exact h
  split
  · exact h
  split
  · exact h
  dsimp only
  constructor
  · intro q hq
    rcases List.mem_append.mp hq with hq | hq
    · obtain ⟨ht, hlt⟩ := h.1 q hq
      exact ⟨ht, Nat.lt_succ_of_lt hlt⟩
    · rw [List.mem_singleton.mp hq]
      exact ⟨⟨jsTrim_idem _, jsTrim_idem _⟩, Nat.lt_succ_self _⟩
  · rw [List.map_append]
    refine List.nodup_append.mpr ⟨h.2, List.nodup_singleton _, ?_⟩
    intro a ha hb
    rcases List.mem_map.mp ha with ⟨q, hq, rfl⟩
    have : q.id = st.nextId := by simpa using hb
    exact absurd (h.1 q hq).2 (by simp [this])

theorem exUpdate_inv (st : Express.Store) (idp : String) (b : Body)
    (now : String) (h : Express.StoreInv st) :
    Express.StoreInv (Express.updateProduct st idp b now).2 := by
  unfold Express.updateProduct
  dsimp only
  cases hf : findWithIdx (fun p => idMatches p.id (parseIntJs idp))
      st.products with
  | none => exact h
  | some ip =>
    obtain ⟨i, p0⟩ := ip
    have hTrim : TrimOk p0 := (h.1 p0 (findWithIdx_mem hf).1).1
    dsimp only
    split
    · exact h
    split
    · exact exSetIdx_inv h hf (applyName_trimOk hTrim _) (applyName_id _ _)
    split
    · exact exSetIdx_inv h hf
        (applyPrice_trimOk (applyName_trimOk hTrim _) _)
        ((applyPrice_id _ _).trans (applyName_id _ _))
    · exact exSetIdx_inv h hf
        (applyCat_trimOk (applyPrice_trimOk (applyName_trimOk hTrim _) _) _)
        ((applyCat_id _ _).trans
          ((applyPrice_id _ _).trans (applyName_id _ _)))

theorem exDelete_inv (st : Express.Store) (idp : String)
    (h : Express.StoreInv st) :
    Express.StoreInv (Express.deleteProduct st idp).2 := by
  unfold Express.deleteProduct
  dsimp only
  cases hf : findWithIdx (fun p => idMatches p.id (parseIntJs idp))
      st.products with
  | none => exact h
  | some ip =>
    obtain ⟨i, p0⟩ := ip
    dsimp only
    constructor
    · intro x hx
      exact h.1 x ((removeIdx_sublist st.products i).subset hx)
    · exact List.Nodup.sublist
        ((removeIdx_sublist st.products i).map Product.id) h.2

/-- Every reachable state of the in-memory backend satisfies the store
invariant: records trimmed, ids below `nextId` and pairwise distinct. -/
theorem exReachable_inv {st : Express.Store}
    (h : Express.Reachable st) : Express.StoreInv st := by
  induction h with
  | init =>
    exact ⟨fun p hp => absurd hp (by simp [Express.initialStore]),
      by simp [Express.initialStore]⟩
  | step _ hs ih =>
    cases hs with
    | create b now => exact exCreate_inv _ b now ih
    | update idp b now => exact exUpdate_inv _ idp b now ih
    | delete idp => exact exDelete_inv _ idp ih

/-! ### Invariant preservation, DynamoDB backend -/

theorem dynCreate_inv (st : Dyn.DStore) (b : Body) (newId now : String)
    (h : Dyn.TableInv st) :
    Dyn.TableInv (Dyn.createProduct st b newId now).2 := by
  unfold Dyn.createProduct
  split
  · exact h
  split
  · exact h
  split
  · exact h
  split
  · exact h
  dsimp only [Dyn.putItem]
  intro x hx
  rcases List.mem_append.mp hx with hx | hx
  · exact h x (List.mem_filter.mp hx).1
  · rw [List.mem_singleton.mp hx]
    exact ⟨jsTrim_idem _, jsTrim_idem _⟩

theorem dynUpdate_inv (st : Dyn.DStore) (id : String) (b : Body)
    (now : String) (h : Dyn.TableInv st) :
    Dyn.TableInv (Dyn.updateProduct st id b now).2 := by
  unfold Dyn.updateProduct
  dsimp only
  cases hf : Dyn.fetchItem st id with
  | none => exact h
  | some item =>
    have hTrim : TrimOk item := h item (findP_mem hf).1
    dsimp only
    split
    · exact h
    split
    · exact h
    split
    · exact h
    · dsimp only [Dyn.replaceItem]
      intro x hx
      rcases List.mem_map.mp hx with ⟨q, hq, rfl⟩
      by_cases hc : q.id == id
      · simp only [hc, if_pos]
        exact applyCat_trimOk
          (applyPrice_trimOk (applyName_trimOk hTrim _) _) _
      · simp only [hc, Bool.false_eq_true, if_false]
        exact h q hq

theorem dynDelete_inv (st : Dyn.DStore) (id : String)
    (h : Dyn.TableInv st) :
    Dyn.TableInv (Dyn.deleteProduct st id).2 := by
  unfold Dyn.deleteProduct
  cases hf : Dyn.fetchItem st id with
  | none => exact h
  | some item =>
    dsimp only
    intro x hx
    exact h x (List.mem_filter.mp hx).1

/-- Every reachable table of the DynamoDB backend holds only trimmed
records. -/
theorem dynReachable_inv {st : Dyn.DStore} (h : Dyn.DReachable st) :
    Dyn.TableInv st := by
  induction h with
  | init => exact fun p hp => absurd hp (by simp)
  | step _ hs ih =>
    cases hs with
    | create b newId now => exact dynCreate_inv _ b newId now ih
    | update id b now => exact dynUpdate_inv _ id b now ih
    | delete id => exact dynDelete_inv _ id ih

/-! ### The claims -/

/-- C2 counterexample: the claim "every response produced by either
adapter includes CORS headers permitting any origin" is false for the
Express adapter — its list response against a concrete store carries no
`Access-Control-Allow-Origin` header at all (the app installs only body
parsers, no CORS middleware). -/
theorem c2_counterexample :
    (Express.listProducts sampleStore).headers.lookup
        "Access-Control-Allow-Origin" = none ∧
      ¬ ("Access-Control-Allow-Origin", "*")
          ∈ (Express.listProducts sampleStore).headers := by
  decide

/-- C2 (amended): every response of the DynamoDB Lambda adapter (each
operation, every branch) carries exactly the `corsHeaders()` headers,
which permit any origin and the methods `GET,POST,PUT,DELETE,OPTIONS`;
the in-memory Express adapter attaches no `Access-Control-Allow-Origin`
header to any response of any operation. -/
theorem c2_cors_headers :
    (∀ (dst : Dyn.DStore) (id newId now : String) (b : Body),
      (Dyn.listProducts dst).headers = Dyn.corsHeaders ∧
      (Dyn.getProduct dst id).headers = Dyn.corsHeaders ∧
      (Dyn.createProduct dst b newId now).1.headers = Dyn.corsHeaders ∧
      (Dyn.updateProduct dst id b now).1.headers = Dyn.corsHeaders ∧
      (Dyn.deleteProduct dst id).1.headers = Dyn.corsHeaders) ∧
    ("Access-Control-Allow-Origin", "*") ∈ Dyn.corsHeaders ∧
    ("Access-Control-Allow-Methods", "GET,POST,PUT,DELETE,OPTIONS")
        ∈ Dyn.corsHeaders ∧
    (∀ (st : Express.Store) (idp now : String) (b : Body),
      (Express.listProducts st).headers.lookup
          "Access-Control-Allow-Origin" = none ∧
      (Express.getProduct st idp).headers.lookup
          "Access-Control-Allow-Origin" = none ∧
      (Express.createProduct st b now).1.headers.lookup
          "Access-Control-Allow-Origin" = none ∧
      (Express.updateProduct st idp b now).1.headers.lookup
          "Access-Control-Allow-Origin" = none ∧
      (Express.deleteProduct st idp).1.headers.lookup
          "Access-Control-Allow-Origin" = none) := by
  refine ⟨fun dst id newId now b =>
      ⟨rfl, dynGet_headers dst id, dynCreate_headers dst b newId now,
        dynUpdate_headers dst id b now, dynDelete_headers dst id⟩,
    by decide, by decide, fun st idp now b => ?_⟩
  refine ⟨?_, ?_, ?_, ?_, ?_⟩
  · rw [exList_headers]
    decide
  · rw [exGet_headers]
    decide
  · rw [exCreate_headers]
    decide
  · rw [exUpdate_headers]
    decide
  · rw [exDelete_headers]
    decide

/-- C9: on the integer-keyed in-memory backend, when the `:id` path
parameter fails to parse as an integer (`parseInt` yields `NaN`),
`get`, `update` and `delete` all return 404 with the store untouched —
the parse failure behaves exactly like a lookup miss, and the total
modelled handlers cannot crash. -/
theorem c9_unparsable_id (st : Express.Store) (idp : String)
    (b : Body) (now : String) (h : parseIntJs idp = none) :
    Express.getProduct st idp
        = Express.exErr 404 "Product with id NaN not found" ∧
    Express.updateProduct st idp b now
        = (Express.exErr 404 "Product with id NaN not found", st) ∧
    Express.deleteProduct st idp
        = (Express.exErr 404 "Product with id NaN not found", st) := by
  have hfp : findP (fun p => idMatches p.id none) st.products = none :=
    findP_eq_none (fun x _ => rfl)
  have hfi : findWithIdx (fun p => idMatches p.id none) st.products
      = none := findWithIdx_eq_none (fun x _ => rfl)
  have hs : "Product with id " ++ idStr none ++ " not found"
      = "Product with id NaN not found" := by decide
  refine ⟨?_, ?_, ?_⟩
  · unfold Express.getProduct
    dsimp only
    rw [h, hfp]
    dsimp only
    rw [hs]
  · unfold Express.updateProduct
    dsimp only
    rw [h, hfi]
    dsimp only
    rw [hs]
  · unfold Express.deleteProduct
    dsimp only
    rw [h, hfi]
    dsimp only
    rw [hs]

/-- C9 witness: the concrete non-numeric id `"abc"` against the sample
store. -/
theorem c9_witness :
    Express.getProduct sampleStore "abc"
        = Express.exErr 404 "Product with id NaN not found" ∧
    Express.updateProduct sampleStore "abc"
        ⟨JVal.vUndef, JVal.vNum 5, JVal.vUndef⟩ "t1"
        = (Express.exErr 404 "Product with id NaN not found",
            sampleStore) ∧
    Express.deleteProduct sampleStore "abc"
        = (Express.exErr 404 "Product with id NaN not found",
            sampleStore) :=
  c9_unparsable_id sampleStore "abc"
    ⟨JVal.vUndef, JVal.vNum 5, JVal.vUndef⟩ "t1" (by decide)

/-- C4: when no stored record matches the requested id, `update`
returns 404 with the store unchanged for *every* request body (so no
validation of the supplied fields can have run — the result does not
depend on `b`), and `get`/`delete` likewise return 404; both for the
in-memory and for the DynamoDB backend. -/
theorem c4_missing_id_not_found (st : Express.Store) (idp : String)
    (b : Body) (now : String)
    (hex : ∀ p ∈ st.products, idMatches p.id (parseIntJs idp) = false)
    (dst : Dyn.DStore) (did : String) (db : Body) (dnow : String)
    (hd : ∀ q ∈ dst, (q.id == did) = false) :
    (Express.getProduct st idp).status = 404 ∧
    Express.updateProduct st idp b now
        = (Express.exErr 404
            ("Product with id " ++ idStr (parseIntJs idp)
              ++ " not found"), st) ∧
    Express.deleteProduct st idp
        = (Express.exErr 404
            ("Product with id " ++ idStr (parseIntJs idp)
              ++ " not found"), st) ∧
    (Dyn.getProduct dst did).status = 404 ∧
    Dyn.updateProduct dst did db dnow
        = (Dyn.errorResponse 404
            ("Product with id " ++ did ++ " not found"), dst) ∧
    Dyn.deleteProduct dst did
        = (Dyn.errorResponse 404
            ("Product with id " ++ did ++ " not found"), dst) := by
  have hdf : Dyn.fetchItem dst did = none := findP_eq_none hd
  refine ⟨?_, ?_, ?_, ?_, ?_, ?_⟩
  · unfold Express.getProduct
    dsimp only
    rw [findP_eq_none hex]
    rfl
  · unfold Express.updateProduct
    dsimp only
    rw [findWithIdx_eq_none hex]
  · unfold Express.deleteProduct
    dsimp only
    rw [findWithIdx_eq_none hex]
  · unfold Dyn.getProduct
    rw [hdf]
    rfl
  · unfold Dyn.updateProduct
    rw [hdf]
  · unfold Dyn.deleteProduct
    rw [hdf]

/-- C3: for every numeric price `q ≤ 0` (zero or negative), `create`
(with a name passing the rule checked before price) and `update` (on an
existing record, name absent or valid) reject with 400 and an error
mentioning "price", in both backends; failed creates and the DynamoDB
update leave the store unchanged. -/
theorem c3_price_nonpositive (q : ℚ) (hq : q ≤ 0)
    (st : Express.Store) (vn vc : JVal) (now : String)
    (hvn : createNameOk vn = true)
    (idp : String) (i : Nat) (p0 : Product Nat) (bu : Body)
    (hfind : findWithIdx (fun p => idMatches p.id (parseIntJs idp))
        st.products = some (i, p0))
    (hbn : nameUpdBad bu.name = false) (hbp : bu.price = JVal.vNum q)
    (dst : Dyn.DStore) (newId dnow : String) (did : String)
    (ditem : Product String)
    (hdfind : Dyn.fetchItem dst did = some ditem)
    (du : Body) (hdn : nameUpdBad du.name = false)
    (hdp : du.price = JVal.vNum q) :
    (Express.createProduct st ⟨vn, JVal.vNum q, vc⟩ now).1
        = Express.exErr 400 "price must be positive" ∧
    (Express.createProduct st ⟨vn, JVal.vNum q, vc⟩ now).2 = st ∧
    mentions "price" "price must be positive" = true ∧
    (Express.updateProduct st idp bu now).1
        = Express.exErr 400 "price must be a positive number" ∧
    mentions "price" "price must be a positive number" = true ∧
    Dyn.createProduct dst ⟨vn, JVal.vNum q, vc⟩ newId dnow
        = (Dyn.errorResponse 400 "Price must be a positive number",
            dst) ∧
    Dyn.updateProduct dst did du dnow
        = (Dyn.errorResponse 400 "Price must be a positive number",
            dst) ∧
    mentions "price" "Price must be a positive number" = true := by
  have h2 : priceUpdBad (JVal.vNum q) = true := by
    simp [priceUpdBad, hq]
  have e1 : (JVal.vNum q == JVal.vUndef) = false := rfl
  have e2 : (JVal.vNum q == JVal.vNull) = false := rfl
  refine ⟨?_, ?_, by decide, ?_, by decide, ?_, ?_, by decide⟩
  · unfold Express.createProduct
    simp [hvn, isNumVal, numOf, hq]
  · unfold Express.createProduct
    simp [hvn, isNumVal, numOf, hq]
  · unfold Express.updateProduct
    dsimp only
    rw [hfind]
    simp [hbn, hbp, h2]
  · unfold Dyn.createProduct
    simp [hvn, isNumVal, numOf, hq, e1, e2]
  · unfold Dyn.updateProduct
    rw [hdfind]
    simp [hdn, hdp, h2]

/-- C3 witness: price `-5` with valid name `"New"` on the sample store
(record id 1) and sample table (key `"u1"`). -/
theorem c3_witness :
    (Express.createProduct sampleStore
        ⟨JVal.vStr "New", JVal.vNum (-5), JVal.vUndef⟩ "t1").1
        = Express.exErr 400 "price must be positive" ∧
    (Express.createProduct sampleStore
        ⟨JVal.vStr "New", JVal.vNum (-5), JVal.vUndef⟩ "t1").2
        = sampleStore ∧
    mentions "price" "price must be positive" = true ∧
    (Express.updateProduct sampleStore "1"
        ⟨JVal.vUndef, JVal.vNum (-5), JVal.vUndef⟩ "t1").1
        = Express.exErr 400 "price must be a positive number" ∧
    mentions "price" "price must be a positive number" = true ∧
    Dyn.createProduct sampleDStore
        ⟨JVal.vStr "New", JVal.vNum (-5), JVal.vUndef⟩ "u2" "t1"
        = (Dyn.errorResponse 400 "Price must be a positive number",
            sampleDStore) ∧
    Dyn.updateProduct sampleDStore "u1"
        ⟨JVal.vUndef, JVal.vNum (-5), JVal.vUndef⟩ "t1"
        = (Dyn.errorResponse 400 "Price must be a positive number",
            sampleDStore) ∧
    mentions "price" "Price must be a positive number" = true :=
  c3_price_nonpositive (-5) (by decide) sampleStore
    (JVal.vStr "New") JVal.vUndef "t1" (by decide) "1" 0 sampleProd
    ⟨JVal.vUndef, JVal.vNum (-5), JVal.vUndef⟩ (by decide) (by decide)
    rfl sampleDStore "u2" "t1" "u1" sampleDProd (by decide)
    ⟨JVal.vUndef, JVal.vNum (-5), JVal.vUndef⟩ (by decide) rfl

/-- C8: deleting an existing id succeeds with 200 and a
`\x7bsuccess: true, message\x7d` body whose message contains "delete",
and a subsequent get of the same id yields 404 — in both backends (the
in-memory part assumes pairwise-distinct stored ids, which holds in
every reachable store by `exReachable_inv`). -/
theorem c8_delete_then_get (st : Express.Store) (idp : String)
    (i : Nat) (p0 : Product Nat)
    (hnd : (st.products.map Product.id).Nodup)
    (hfind : findWithIdx (fun p => idMatches p.id (parseIntJs idp))
        st.products = some (i, p0))
    (dst : Dyn.DStore) (did : String) (ditem : Product String)
    (hdfind : Dyn.fetchItem dst did = some ditem) :
    (Express.deleteProduct st idp).1.status = 200 ∧
    (Express.deleteProduct st idp).1.body
        = RBody.msg ("Product with id " ++ idStr (parseIntJs idp)
            ++ " deleted successfully") ∧
    mentions "delete" ("Product with id " ++ idStr (parseIntJs idp)
        ++ " deleted successfully") = true ∧
    (Express.getProduct (Express.deleteProduct st idp).2 idp).status
        = 404 ∧
    (Dyn.deleteProduct dst did).1.status = 200 ∧
    (Dyn.deleteProduct dst did).1.body
        = RBody.msg "Product deleted successfully" ∧
    mentions "delete" "Product deleted successfully" = true ∧
    (Dyn.getProduct (Dyn.deleteProduct dst did).2 did).status
        = 404 := by
  have hdel : Express.deleteProduct st idp
      = (Express.exOk 200 (RBody.msg
            ("Product with id " ++ idStr (parseIntJs idp)
              ++ " deleted successfully")),
          ⟨removeIdx st.products i, st.nextId⟩) := by
    unfold Express.deleteProduct
    dsimp only
    rw [hfind]
  have hddel : Dyn.deleteProduct dst did
      = (⟨200, Dyn.corsHeaders, RBody.msg "Product deleted successfully"⟩,
          dst.filter (fun q => !(q.id == did))) := by
    unfold Dyn.deleteProduct
    rw [hdfind]
  have hnone : findP (fun q => q.id == did)
      (dst.filter (fun q => !(q.id == did))) = none := by
    apply findP_eq_none
    intro x hx
    have hxf := (List.mem_filter.mp hx).2
    simpa using hxf
  refine ⟨?_, ?_, ?_, ?_, ?_, ?_, by decide, ?_⟩
  · rw [hdel]
    rfl
  · rw [hdel]
    rfl
  · exact mentions_append_right "Product with id "
      (mentions_append_right (idStr (parseIntJs idp)) (by decide))
  · rw [hdel]
    unfold Express.getProduct
    dsimp only
    rw [findP_removeIdx_none hnd hfind]
    rfl
  · rw [hddel]
  · rw [hddel]
  · rw [hddel]
    unfold Dyn.getProduct Dyn.fetchItem
    rw [hnone]
    rfl

/-- C8 witness: delete record 1 from the sample store and key "u1"
from the sample table, then get each again. -/
theorem c8_witness :
    (Express.deleteProduct sampleStore "1").1.status = 200 ∧
    (Express.deleteProduct sampleStore "1").1.body
        = RBody.msg ("Product with id " ++ idStr (parseIntJs "1")
            ++ " deleted successfully") ∧
    mentions "delete" ("Product with id " ++ idStr (parseIntJs "1")
        ++ " deleted successfully") = true ∧
    (Express.getProduct (Express.deleteProduct sampleStore "1").2
        "1").status = 404 ∧
    (Dyn.deleteProduct sampleDStore "u1").1.status = 200 ∧
    (Dyn.deleteProduct sampleDStore "u1").1.body
        = RBody.msg "Product deleted successfully" ∧
    mentions "delete" "Product deleted successfully" = true ∧
    (Dyn.getProduct (Dyn.deleteProduct sampleDStore "u1").2
        "u1").status = 404 :=
  c8_delete_then_get sampleStore "1" 0 sampleProd (by decide)
    (by decide) sampleDStore "u1" sampleDProd (by decide)

/-- C6: `name` and `category` are always stored trimmed: successful
creates and updates with string inputs store and return exactly the
trimmed inputs, and no reachable store state of either backend holds a
record whose `name` or `category` has surrounding whitespace. -/
theorem c6_trimmed_storage :
    (∀ st : Express.Store, Express.Reachable st →
      ∀ p ∈ st.products,
        jsTrim p.name = p.name ∧ jsTrim p.category = p.category) ∧
    (∀ dst : Dyn.DStore, Dyn.DReachable dst →
      ∀ p ∈ dst,
        jsTrim p.name = p.name ∧ jsTrim p.category = p.category) ∧
    (∀ (st : Express.Store) (nm cat now : String) (q : ℚ),
      jsTrim nm ≠ "" → 0 < q → jsTrim cat ≠ "" →
      Express.createProduct st
          ⟨JVal.vStr nm, JVal.vNum q, JVal.vStr cat⟩ now
        = (Express.exOk 201 (RBody.one
              ⟨st.nextId, jsTrim nm, q, jsTrim cat, now, none⟩),
            ⟨st.products
                ++ [⟨st.nextId, jsTrim nm, q, jsTrim cat, now, none⟩],
              st.nextId + 1⟩)) ∧
    (∀ (dst : Dyn.DStore) (nm cat newId now : String) (q : ℚ),
      jsTrim nm ≠ "" → 0 < q → jsTrim cat ≠ "" →
      Dyn.createProduct dst
          ⟨JVal.vStr nm, JVal.vNum q, JVal.vStr cat⟩ newId now
        = (Dyn.successResponse 201 (RBody.one
              ⟨newId, jsTrim nm, q, jsTrim cat, now, none⟩),
            Dyn.putItem dst
              ⟨newId, jsTrim nm, q, jsTrim cat, now, none⟩)) ∧
    (∀ (st : Express.Store) (idp nm cat now : String) (q : ℚ)
        (i : Nat) (p0 : Product Nat),
      findWithIdx (fun p => idMatches p.id (parseIntJs idp))
          st.products = some (i, p0) →
      jsTrim nm ≠ "" → 0 < q → jsTrim cat ≠ "" →
      Express.updateProduct st idp
          ⟨JVal.vStr nm, JVal.vNum q, JVal.vStr cat⟩ now
        = (Express.exOk 200 (RBody.one
              ⟨p0.id, jsTrim nm, q, jsTrim cat, p0.createdAt,
                some now⟩),
            ⟨setIdx st.products i
                ⟨p0.id, jsTrim nm, q, jsTrim cat, p0.createdAt,
                  some now⟩,
              st.nextId⟩)) ∧
    (∀ (dst : Dyn.DStore) (did nm cat now : String) (q : ℚ)
        (item : Product String),
      Dyn.fetchItem dst did = some item →
      jsTrim nm ≠ "" → 0 < q → jsTrim cat ≠ "" →
      Dyn.updateProduct dst did
          ⟨JVal.vStr nm, JVal.vNum q, JVal.vStr cat⟩ now
        = (Dyn.successResponse 200 (RBody.one
              ⟨item.id, jsTrim nm, q, jsTrim cat, item.createdAt,
                some now⟩),
            Dyn.replaceItem dst did
              ⟨item.id, jsTrim nm, q, jsTrim cat, item.createdAt,
                some now⟩)) := by
  refine ⟨fun st h p hp => ((exReachable_inv h).1 p hp).1,
    fun dst h p hp => dynReachable_inv h p hp, ?_, ?_, ?_, ?_⟩
  · intro st nm cat now q hnm hq hcat
    have hq' : ¬ q ≤ 0 := not_le.mpr hq
    unfold Express.createProduct
    simp [createNameOk, isNumVal, numOf, strOf, hnm, hq', hcat]
  · intro dst nm cat newId now q hnm hq hcat
    have hq' : ¬ q ≤ 0 := not_le.mpr hq
    have e1 : (JVal.vNum q == JVal.vUndef) = false := rfl
    have e2 : (JVal.vNum q == JVal.vNull) = false := rfl
    unfold Dyn.createProduct
    simp [createNameOk, isNumVal, numOf, strOf, hnm, hq', hcat, e1, e2]
  · intro st idp nm cat now q i p0 hfind hnm hq hcat
    have hq' : ¬ q ≤ 0 := not_le.mpr hq
    unfold Express.updateProduct
    dsimp only
    rw [hfind]
    simp [nameUpdBad, priceUpdBad, applyName, applyPrice, applyCat,
      hnm, hq', hcat]
  · intro dst did nm cat now q item hfind hnm hq hcat
    have hq' : ¬ q ≤ 0 := not_le.mpr hq
    unfold Dyn.updateProduct
    rw [hfind]
    simp [nameUpdBad, priceUpdBad, applyName, applyPrice, applyCat,
      hnm, hq', hcat]

/-- C6 witness: the sample store is reachable (one create from the
initial store), its record is trimmed; likewise for the sample table;
and a concrete create with padded `" Widget "`/`" Tools "` stores the
trimmed strings. -/
theorem c6_witness :
    (jsTrim sampleProd.name = sampleProd.name ∧
      jsTrim sampleProd.category = sampleProd.category) ∧
    (jsTrim sampleDProd.name = sampleDProd.name ∧
      jsTrim sampleDProd.category = sampleDProd.category) ∧
    Express.createProduct sampleStore
        ⟨JVal.vStr " Widget ", JVal.vNum 3, JVal.vStr " Tools "⟩ "t1"
      = (Express.exOk 201 (RBody.one
            ⟨sampleStore.nextId, jsTrim " Widget ", 3,
              jsTrim " Tools ", "t1", none⟩),
          ⟨sampleStore.products
              ++ [⟨sampleStore.nextId, jsTrim " Widget ", 3,
                jsTrim " Tools ", "t1", none⟩],
            sampleStore.nextId + 1⟩) :=
  ⟨c6_trimmed_storage.1 sampleStore
      (by
        have hs := Express.Reachable.step Express.Reachable.init
          (Express.Step.create Express.initialStore
            ⟨JVal.vStr "Old", JVal.vNum 10, JVal.vStr "Cat"⟩ "t0")
        have he : (Express.createProduct Express.initialStore
            ⟨JVal.vStr "Old", JVal.vNum 10, JVal.vStr "Cat"⟩ "t0").2
            = sampleStore := by decide
        rwa [he] at hs)
      sampleProd (by decide),
   c6_trimmed_storage.2.1 sampleDStore
      (by
        have hs := Dyn.DReachable.step Dyn.DReachable.init
          (Dyn.DStep.create []
            ⟨JVal.vStr "Old", JVal.vNum 10, JVal.vStr "Cat"⟩
            "u1" "t0")
        have he : (Dyn.createProduct []
            ⟨JVal.vStr "Old", JVal.vNum 10, JVal.vStr "Cat"⟩
            "u1" "t0").2 = sampleDStore := by decide
        rwa [he] at hs)
      sampleDProd (by decide),
   c6_trimmed_storage.2.2.1 sampleStore " Widget " " Tools " "t1" 3
      (by decide) (by decide) (by decide)⟩

/-- C5: on create the three rules are evaluated in the fixed order
name, then price, then category, and the first violated rule alone
determines the single reported error: whenever any rule is violated
(possibly several), both backends return one 400 error whose message
mentions the earliest violated rule's field and neither of the other
two fields, and leave the store unchanged. -/
theorem c5_first_rule_wins (b : Body) (st : Express.Store)
    (now : String) (dst : Dyn.DStore) (newId dnow : String)
    (f : RuleField) (hf : firstBad b = some f) :
    (Express.createProduct st b now).1.status = 400 ∧
    (Express.createProduct st b now).2 = st ∧
    mentions (fieldWord f)
        ((Express.createProduct st b now).1.errText) = true ∧
    otherWordsAbsent f ((Express.createProduct st b now).1.errText)
        = true ∧
    (Dyn.createProduct dst b newId dnow).1.status = 400 ∧
    (Dyn.createProduct dst b newId dnow).2 = dst ∧
    mentions (fieldWord f)
        ((Dyn.createProduct dst b newId dnow).1.errText) = true ∧
    otherWordsAbsent f
        ((Dyn.createProduct dst b newId dnow).1.errText) = true := by
  unfold firstBad at hf
  cases h1 : createNameOk b.name with
  | false =>
    simp [h1] at hf
    subst hf
    unfold Express.createProduct Dyn.createProduct
    simp [h1]
    all_goals decide
  | true =>
    cases hp : b.price with
    | vUndef =>
      simp [h1, hp, isNumVal] at hf
      subst hf
      unfold Express.createProduct Dyn.createProduct
      simp [h1, hp, isNumVal]
      all_goals decide
    | vNull =>
      have e1 : (JVal.vNull == JVal.vUndef) = false := rfl
      have e2 : (JVal.vNull == JVal.vNull) = true := rfl
      simp [h1, hp, isNumVal] at hf
      subst hf
      unfold Express.createProduct Dyn.createProduct
      simp [h1, hp, isNumVal, e1, e2]
      all_goals decide
    | vStr s =>
      have e1 : (JVal.vStr s == JVal.vUndef) = false := rfl
      have e2 : (JVal.vStr s == JVal.vNull) = false := rfl
      simp [h1, hp, isNumVal] at hf
      subst hf
      unfold Express.createProduct Dyn.createProduct
      simp [h1, hp, isNumVal, e1, e2]
      all_goals decide
    | vOther =>
      have e1 : (JVal.vOther == JVal.vUndef) = false := rfl
      have e2 : (JVal.vOther == JVal.vNull) = false := rfl
      simp [h1, hp, isNumVal] at hf
      subst hf
      unfold Express.createProduct Dyn.createProduct
      simp [h1, hp, isNumVal, e1, e2]
      all_goals decide
    | vNum q =>
      have e1 : (JVal.vNum q == JVal.vUndef) = false := rfl
      have e2 : (JVal.vNum q == JVal.vNull) = false := rfl
      by_cases hq : 0 < q
      · have hq' : ¬ q ≤ 0 := not_le.mpr hq
        cases h3 : createNameOk b.category with
        | false =>
          simp [h1, hp, h3, isNumVal, numOf, hq] at hf
          subst hf
          unfold Express.createProduct Dyn.createProduct
          simp [h1, hp, h3, isNumVal, numOf, hq', e1, e2]
          all_goals decide
        | true =>
          simp [h1, hp, h3, isNumVal, numOf, hq] at hf
      · have hq' : q ≤ 0 := le_of_not_lt hq
        simp [h1, hp, isNumVal, numOf, hq] at hf
        subst hf
        unfold Express.createProduct Dyn.createProduct
        simp [h1, hp, isNumVal, numOf, hq', e1, e2]
        all_goals decide

/-- C5 witness: a body violating both the name and the category rule
(name a number, category absent) — the single reported error is the
name error, the earliest in the order. -/
theorem c5_witness :
    (Express.createProduct sampleStore
        ⟨JVal.vNum 5, JVal.vNum 3, JVal.vUndef⟩ "t1").1.status = 400 ∧
    (Express.createProduct sampleStore
        ⟨JVal.vNum 5, JVal.vNum 3, JVal.vUndef⟩ "t1").2
        = sampleStore ∧
    mentions (fieldWord RuleField.fname)
        ((Express.createProduct sampleStore
          ⟨JVal.vNum 5, JVal.vNum 3, JVal.vUndef⟩ "t1").1.errText)
        = true ∧
    otherWordsAbsent RuleField.fname
        ((Express.createProduct sampleStore
          ⟨JVal.vNum 5, JVal.vNum 3, JVal.vUndef⟩ "t1").1.errText)
        = true ∧
    (Dyn.createProduct sampleDStore
        ⟨JVal.vNum 5, JVal.vNum 3, JVal.vUndef⟩ "u2" "t1").1.status
        = 400 ∧
    (Dyn.createProduct sampleDStore
        ⟨JVal.vNum 5, JVal.vNum 3, JVal.vUndef⟩ "u2" "t1").2
        = sampleDStore ∧
    mentions (fieldWord RuleField.fname)
        ((Dyn.createProduct sampleDStore
          ⟨JVal.vNum 5, JVal.vNum 3, JVal.vUndef⟩ "u2" "t1").1.errText)
        = true ∧
    otherWordsAbsent RuleField.fname
        ((Dyn.createProduct sampleDStore
          ⟨JVal.vNum 5, JVal.vNum 3, JVal.vUndef⟩ "u2" "t1").1.errText)
        = true :=
  c5_first_rule_wins ⟨JVal.vNum 5, JVal.vNum 3, JVal.vUndef⟩
    sampleStore "t1" sampleDStore "u2" "t1" RuleField.fname (by decide)

/-- C1 counterexample: on the in-memory backend, an update supplying a
valid name and an invalid price (`\x7bname: "New", price: -5\x7d`)
against stored product 1 returns 400 — yet the stored record is *not*
left unchanged: its name has already been overwritten with "New".  This
refutes the claim that no individual field is modified before the error
is reported in both backends. -/
theorem c1_counterexample :
    (Express.updateProduct sampleStore "1"
        ⟨JVal.vStr "New", JVal.vNum (-5), JVal.vUndef⟩ "t1").1.status
      = 400 ∧
    (Express.updateProduct sampleStore "1"
        ⟨JVal.vStr "New", JVal.vNum (-5), JVal.vUndef⟩ "t1").2
      = ⟨[⟨1, "New", 10, "Cat", "t0", none⟩], 2⟩ ∧
    (⟨[⟨1, "New", 10, "Cat", "t0", none⟩], 2⟩ : Express.Store)
      ≠ sampleStore := by
  decide

/-- C1 (amended): when the supplied fields of an update fail
validation, both backends signal 400 (InvalidInput); the DynamoDB
backend leaves the table completely unchanged, while the in-memory
backend has already applied the supplied valid fields preceding the
first failing field (in the order name, price, category), so the stored
record may be partially modified before the error is reported. -/
theorem c1_amended (st : Express.Store) (idp : String) (b : Body)
    (now : String) (i : Nat) (p0 : Product Nat)
    (hfind : findWithIdx (fun p => idMatches p.id (parseIntJs idp))
        st.products = some (i, p0))
    (dst : Dyn.DStore) (did : String) (db : Body) (dnow : String) :
    ((Dyn.updateProduct dst did db dnow).1.status = 400 →
      (Dyn.updateProduct dst did db dnow).2 = dst) ∧
    (nameUpdBad b.name = true →
      Express.updateProduct st idp b now
        = (Express.exErr 400 "name must be a non-empty string", st)) ∧
    (nameUpdBad b.name = false → priceUpdBad b.price = true →
      Express.updateProduct st idp b now
        = (Express.exErr 400 "price must be a positive number",
            ⟨setIdx st.products i (applyName p0 b.name),
              st.nextId⟩)) ∧
    (nameUpdBad b.name = false → priceUpdBad b.price = false →
      nameUpdBad b.category = true →
      Express.updateProduct st idp b now
        = (Express.exErr 400 "category must be a non-empty string",
            ⟨setIdx st.products i
                (applyPrice (applyName p0 b.name) b.price),
              st.nextId⟩)) := by
  refine ⟨?_, ?_, ?_, ?_⟩
  · unfold Dyn.updateProduct
    cases hdf : Dyn.fetchItem dst did with
    | none => intro _; rfl
    | some item =>
      dsimp only
      split
      · intro _; rfl
      split
      · intro _; rfl
      split
      · intro _; rfl
      · intro h
        simp [Dyn.successResponse] at h
  · intro hn
    unfold Express.updateProduct
    dsimp only
    rw [hfind]
    simp [hn]
  · intro hn hp
    unfold Express.updateProduct
    dsimp only
    rw [hfind]
    simp [hn, hp]
  · intro hn hp hc
    unfold Express.updateProduct
    dsimp only
    rw [hfind]
    simp [hn, hp, hc]

/-- C1 witness: the amended statement at the concrete counterexample
input — the in-memory backend stores the new name before rejecting the
price, the DynamoDB backend leaves the table unchanged. -/
theorem c1_witness :
    Express.updateProduct sampleStore "1"
        ⟨JVal.vStr "New", JVal.vNum (-5), JVal.vUndef⟩ "t1"
      = (Express.exErr 400 "price must be a positive number",
          ⟨setIdx sampleStore.products 0
              (applyName sampleProd (JVal.vStr "New")),
            sampleStore.nextId⟩) ∧
    (Dyn.updateProduct sampleDStore "u1"
        ⟨JVal.vStr "New", JVal.vNum (-5), JVal.vUndef⟩ "t1").2
      = sampleDStore :=
  ⟨(c1_amended sampleStore "1"
      ⟨JVal.vStr "New", JVal.vNum (-5), JVal.vUndef⟩ "t1" 0 sampleProd
      (by decide) sampleDStore "u1"
      ⟨JVal.vStr "New", JVal.vNum (-5), JVal.vUndef⟩ "t1").2.2.1
      (by decide) (by decide),
   (c1_amended sampleStore "1"
      ⟨JVal.vStr "New", JVal.vNum (-5), JVal.vUndef⟩ "t1" 0 sampleProd
      (by decide) sampleDStore "u1"
      ⟨JVal.vStr "New", JVal.vNum (-5), JVal.vUndef⟩ "t1").1
      (by decide)⟩

/-- C7: `update(id, \x7bprice: 75\x7d)` on an existing record succeeds
and changes exactly `price` (to 75) and `updatedAt` (to the current
time) — `name`, `category`, `id`, `createdAt` keep their prior values;
and in general every successful partial update returns and stores a
record agreeing with the old one on `id`, `createdAt` and every
unsupplied field, with `updatedAt` set; in both backends. -/
theorem c7_partial_update_frame :
    (∀ (st : Express.Store) (idp now : String) (i : Nat)
        (p0 : Product Nat),
      findWithIdx (fun p => idMatches p.id (parseIntJs idp))
          st.products = some (i, p0) →
      Express.updateProduct st idp
          ⟨JVal.vUndef, JVal.vNum 75, JVal.vUndef⟩ now
        = (Express.exOk 200 (RBody.one
              { p0 with price := 75, updatedAt := some now }),
            ⟨setIdx st.products i
                { p0 with price := 75, updatedAt := some now },
              st.nextId⟩)) ∧
    (∀ (dst : Dyn.DStore) (did now : String) (item : Product String),
      Dyn.fetchItem dst did = some item →
      Dyn.updateProduct dst did
          ⟨JVal.vUndef, JVal.vNum 75, JVal.vUndef⟩ now
        = (Dyn.successResponse 200 (RBody.one
              { item with price := 75, updatedAt := some now }),
            Dyn.replaceItem dst did
              { item with price := 75, updatedAt := some now })) ∧
    (∀ (st : Express.Store) (idp now : String) (b : Body),
      (Express.updateProduct st idp b now).1.status = 200 →
      ∃ i p0 r,
        findWithIdx (fun p => idMatches p.id (parseIntJs idp))
            st.products = some (i, p0) ∧
        (Express.updateProduct st idp b now).1.body = RBody.one r ∧
        (Express.updateProduct st idp b now).2
            = ⟨setIdx st.products i r, st.nextId⟩ ∧
        r.id = p0.id ∧ r.createdAt = p0.createdAt ∧
        r.updatedAt = some now ∧
        (b.name = JVal.vUndef → r.name = p0.name) ∧
        (b.price = JVal.vUndef → r.price = p0.price) ∧
        (b.category = JVal.vUndef → r.category = p0.category)) ∧
    (∀ (dst : Dyn.DStore) (did now : String) (b : Body),
      (Dyn.updateProduct dst did b now).1.status = 200 →
      ∃ item r,
        Dyn.fetchItem dst did = some item ∧
        (Dyn.updateProduct dst did b now).1.body = RBody.one r ∧
        (Dyn.updateProduct dst did b now).2
            = Dyn.replaceItem dst did r ∧
        r.id = item.id ∧ r.createdAt = item.createdAt ∧
        r.updatedAt = some now ∧
        (b.name = JVal.vUndef → r.name = item.name) ∧
        (b.price = JVal.vUndef → r.price = item.price) ∧
        (b.category = JVal.vUndef → r.category = item.category)) := by
  have h75 : priceUpdBad (JVal.vNum 75) = false := by decide
  refine ⟨?_, ?_, ?_, ?_⟩
  · intro st idp now i p0 hfind
    unfold Express.updateProduct
    dsimp only
    rw [hfind]
    simp [nameUpdBad, h75, applyName, applyPrice, applyCat]
  · intro dst did now item hfind
    unfold Dyn.updateProduct
    rw [hfind]
    simp [nameUpdBad, h75, applyName, applyPrice, applyCat]
  · intro st idp now b h
    unfold Express.updateProduct at h ⊢
    dsimp only at h ⊢
    cases hfind : findWithIdx (fun p => idMatches p.id (parseIntJs idp))
        st.products with
    | none =>
      rw [hfind] at h
      simp [Express.exErr] at h
    | some ip =>
      obtain ⟨i, p0⟩ := ip
      rw [hfind] at h
      dsimp only at h ⊢
      cases hc1 : nameUpdBad b.name with
      | true => simp [hc1, Express.exErr] at h
      | false =>
      cases hc2 : priceUpdBad b.price with
      | true => simp [hc1, hc2, Express.exErr] at h
      | false =>
      cases hc3 : nameUpdBad b.category with
      | true => simp [hc1, hc2, hc3, Express.exErr] at h
      | false =>
        simp only [hc1, hc2, hc3, Bool.false_eq_true, if_false]
        refine ⟨i, p0, _, rfl, rfl, rfl, ?_, ?_, rfl, ?_, ?_, ?_⟩
        · simp [applyCat_id, applyPrice_id, applyName_id]
        · simp [applyCat_createdAt, applyPrice_createdAt,
            applyName_createdAt]
        · intro hbn
          simp [hbn, applyName_undef, applyCat_name, applyPrice_name]
        · intro hbp
          simp [hbp, applyPrice_undef, applyCat_price, applyName_price]
        · intro hbc
          simp [hbc, applyCat_undef, applyPrice_category,
            applyName_category]
  · intro dst did now b h
    unfold Dyn.updateProduct at h ⊢
    cases hfind : Dyn.fetchItem dst did with
    | none =>
      rw [hfind] at h
      simp [Dyn.errorResponse] at h
    | some item =>
      rw [hfind] at h
      dsimp only at h ⊢
      cases hc1 : nameUpdBad b.name with
      | true => simp [hc1, Dyn.errorResponse] at h
      | false =>
      cases hc2 : priceUpdBad b.price with
      | true => simp [hc1, hc2, Dyn.errorResponse] at h
      | false =>
      cases hc3 : nameUpdBad b.category with
      | true => simp [hc1, hc2, hc3, Dyn.errorResponse] at h
      | false =>
        simp only [hc1, hc2, hc3, Bool.false_eq_true, if_false]
        refine ⟨item, _, rfl, rfl, rfl, ?_, ?_, rfl, ?_, ?_, ?_⟩
        · simp [applyCat_id, applyPrice_id, applyName_id]
        · simp [applyCat_createdAt, applyPrice_createdAt,
            applyName_createdAt]
        · intro hbn
          simp [hbn, applyName_undef, applyCat_name, applyPrice_name]
        · intro hbp
          simp [hbp, applyPrice_undef, applyCat_price, applyName_price]
        · intro hbc
          simp [hbc, applyCat_undef, applyPrice_category,
            applyName_category]

/-- C7 witness: `\x7bprice: 75\x7d` against the sample store (record 1)
and the sample table (key "u1"). -/
theorem c7_witness :
    Express.updateProduct sampleStore "1"
        ⟨JVal.vUndef, JVal.vNum 75, JVal.vUndef⟩ "t9"
      = (Express.exOk 200 (RBody.one
            { sampleProd with price := 75, updatedAt := some "t9" }),
          ⟨setIdx sampleStore.products 0
              { sampleProd with price := 75, updatedAt := some "t9" },
            sampleStore.nextId⟩) ∧
    Dyn.updateProduct sampleDStore "u1"
        ⟨JVal.vUndef, JVal.vNum 75, JVal.vUndef⟩ "t9"
      = (Dyn.successResponse 200 (RBody.one
            { sampleDProd with price := 75, updatedAt := some "t9" }),
          Dyn.replaceItem sampleDStore "u1"
            { sampleDProd with price := 75, updatedAt := some "t9" }) :=
  ⟨c7_partial_update_frame.1 sampleStore "1" "t9" 0 sampleProd
      (by decide),
   c7_partial_update_frame.2.1 sampleDStore "u1" "t9" sampleDProd
      (by decide)⟩

/-- C10: `update(id, \x7b\x7d)` with no supplied field succeeds with
200 on an existing record in both backends (neither requires at least
one updatable field), returns the full record, sets `updatedAt` to the
current time and changes nothing else. -/
theorem c10_empty_update :
    (∀ (st : Express.Store) (idp now : String) (i : Nat)
        (p0 : Product Nat),
      findWithIdx (fun p => idMatches p.id (parseIntJs idp))
          st.products = some (i, p0) →
      Express.updateProduct st idp
          ⟨JVal.vUndef, JVal.vUndef, JVal.vUndef⟩ now
        = (Express.exOk 200 (RBody.one
              { p0 with updatedAt := some now }),
            ⟨setIdx st.products i { p0 with updatedAt := some now },
              st.nextId⟩)) ∧
    (∀ (dst : Dyn.DStore) (did now : String) (item : Product String),
      Dyn.fetchItem dst did = some item →
      Dyn.updateProduct dst did
          ⟨JVal.vUndef, JVal.vUndef, JVal.vUndef⟩ now
        = (Dyn.successResponse 200 (RBody.one
              { item with updatedAt := some now }),
            Dyn.replaceItem dst did
              { item with updatedAt := some now })) := by
  refine ⟨?_, ?_⟩
  · intro st idp now i p0 hfind
    unfold Express.updateProduct
    dsimp only
    rw [hfind]
    simp [nameUpdBad, priceUpdBad, applyName, applyPrice, applyCat]
  · intro dst did now item hfind
    unfold Dyn.updateProduct
    rw [hfind]
    simp [nameUpdBad, priceUpdBad, applyName, applyPrice, applyCat]

/-- C10 witness: the empty update against the sample store (record 1)
and sample table (key "u1"). -/
theorem c10_witness :
    Express.updateProduct sampleStore "1"
        ⟨JVal.vUndef, JVal.vUndef, JVal.vUndef⟩ "t9"
      = (Express.exOk 200 (RBody.one
            { sampleProd with updatedAt := some "t9" }),
          ⟨setIdx sampleStore.products 0
              { sampleProd with updatedAt := some "t9" },
            sampleStore.nextId⟩) ∧
    Dyn.updateProduct sampleDStore "u1"
        ⟨JVal.vUndef, JVal.vUndef, JVal.vUndef⟩ "t9"
      = (Dyn.successResponse 200 (RBody.one
            { sampleDProd with updatedAt := some "t9" }),
          Dyn.replaceItem sampleDStore "u1"
            { sampleDProd with updatedAt := some "t9" }) :=
  ⟨c10_empty_update.1 sampleStore "1" "t9" 0 sampleProd (by decide),
   c10_empty_update.2 sampleDStore "u1" "t9" sampleDProd (by decide)⟩

/-- C4 witness: id 99 (never issued) against the sample store, with the
claim's own invalid body `price: -5`, and key `"zzz"` against the
sample table. -/
theorem c4_witness :
    (Express.getProduct sampleStore "99").status = 404 ∧
    Express.updateProduct sampleStore "99"
        ⟨JVal.vUndef, JVal.vNum (-5), JVal.vUndef⟩ "t1"
        = (Express.exErr 404
            ("Product with id " ++ idStr (parseIntJs "99")
              ++ " not found"), sampleStore) ∧
    Express.deleteProduct sampleStore "99"
        = (Express.exErr 404
            ("Product with id " ++ idStr (parseIntJs "99")
              ++ " not found"), sampleStore) ∧
    (Dyn.getProduct sampleDStore "zzz").status = 404 ∧
    Dyn.updateProduct sampleDStore "zzz"
        ⟨JVal.vUndef, JVal.vNum (-5), JVal.vUndef⟩ "t1"
        = (Dyn.errorResponse 404
            ("Product with id " ++ "zzz" ++ " not found"),
            sampleDStore) ∧
    Dyn.deleteProduct sampleDStore "zzz"
        = (Dyn.errorResponse 404
            ("Product with id " ++ "zzz" ++ " not found"),
            sampleDStore) :=
  c4_missing_id_not_found sampleStore "99"
    ⟨JVal.vUndef, JVal.vNum (-5), JVal.vUndef⟩ "t1" (by decide)
    sampleDStore "zzz" ⟨JVal.vUndef, JVal.vNum (-5), JVal.vUndef⟩ "t1"
    (by decide)
